import Mathlib

/-!
Shallow embedding of the 2-D Verlet particle engine from `src/main.rs`.

Numeric model: `f32` values are modelled as exact rationals (`ℚ`); the
machine square root `f32::sqrt` is abstracted as a function parameter
`sq : ℚ → ℚ`, constrained in each theorem by the hypotheses
`sq d * sq d = d` and `0 ≤ sq d` at the argument actually encountered,
which is exactly the specification of a square root where it is exact.
A second, small model over `Option ℚ` (`none` = non-finite: NaN or ±∞)
is used to analyse the coincident-centers case, where the code performs
the IEEE division `0.0 / 0.0`.

Rendering, random number generation and the window loop are presentation
glue: the random radius, the color and the painter's shape index are
injected as parameters of the spawn operation, exactly where the code
draws them from `thread_rng` / `get_rainbow` / `ui.painter().add`.
-/

/-- Two-dimensional vector over ℚ, modelling both `Pos2` and `Vec2` of the
source (they share the componentwise arithmetic used here). -/
structure V2 where
  x : ℚ
  y : ℚ
deriving DecidableEq

attribute [ext] V2

instance : Add V2 := ⟨fun a b => ⟨a.x + b.x, a.y + b.y⟩⟩
instance : Sub V2 := ⟨fun a b => ⟨a.x - b.x, a.y - b.y⟩⟩
instance : HMul V2 ℚ V2 := ⟨fun v c => ⟨v.x * c, v.y * c⟩⟩
instance : HDiv V2 ℚ V2 := ⟨fun v c => ⟨v.x / c, v.y / c⟩⟩

@[simp] theorem V2.add_x (a b : V2) : (a + b).x = a.x + b.x := rfl
@[simp] theorem V2.add_y (a b : V2) : (a + b).y = a.y + b.y := rfl
@[simp] theorem V2.sub_x (a b : V2) : (a - b).x = a.x - b.x := rfl
@[simp] theorem V2.sub_y (a b : V2) : (a - b).y = a.y - b.y := rfl
@[simp] theorem V2.smul_x (v : V2) (c : ℚ) : (v * c).x = v.x * c := rfl
@[simp] theorem V2.smul_y (v : V2) (c : ℚ) : (v * c).y = v.y * c := rfl
@[simp] theorem V2.sdiv_x (v : V2) (c : ℚ) : (v / c).x = v.x / c := rfl
@[simp] theorem V2.sdiv_y (v : V2) (c : ℚ) : (v / c).y = v.y / c := rfl

/-- `const RECT_CANVAS_START: Pos2 = Pos2 { x: 50., y: 50. }`. -/
def RECT_CANVAS_START : V2 := ⟨50, 50⟩

/-- `const RECT_CANVAS_END: Pos2 = Pos2 { x: 1050., y: 550. }`. -/
def RECT_CANVAS_END : V2 := ⟨1050, 550⟩

/-- `const CIRCLE_STARTING_POS` = `(RECT_CANVAS_START.x * 2., RECT_CANVAS_START.y * 2.)`. -/
def CIRCLE_STARTING_POS : V2 := ⟨RECT_CANVAS_START.x * 2, RECT_CANVAS_START.y * 2⟩

/-- `const CIRCLES_NUMBER: u32 = 750` — the population cap. -/
def CIRCLES_NUMBER : ℕ := 750

/-- `const GRAVITY: Vec2 = Vec2 { x: 0., y: 0.1 }`. -/
def GRAVITY : V2 := ⟨0, 0.1⟩

/-- `const SUB_STEPS: i32 = 10` — declared in the source but, notably, not
referenced by `Window::update`. -/
def SUB_STEPS : ℕ := 10

/-- The `Entity` struct. `ShapeIdx` (an index into the painter's shape list)
and `Color32` are modelled as naturals; they carry no arithmetic. -/
structure Entity where
  id : ℕ
  shape_id : ℕ
  position : V2
  old_position : V2
  acceleration : V2
  color : ℕ
  radius : ℚ
deriving DecidableEq

/-- `impl PartialEq for Entity`: the source compares `shape_id`, the
rendering-layer handle. -/
def Entity.eq (a b : Entity) : Bool := a.shape_id == b.shape_id

/-- `Entity::accelerate`: `self.acceleration += acc`. -/
def Entity.accelerate (e : Entity) (acc : V2) : Entity :=
  { e with acceleration := e.acceleration + acc }

/-- `Entity::apply_gravity`: `self.accelerate(GRAVITY)`. -/
def Entity.apply_gravity (e : Entity) : Entity :=
  e.accelerate GRAVITY

/-- `Entity::update` — one Verlet step:
`velocity = position - old_position; old_position = position; apply_gravity();
position = position + velocity + acceleration; acceleration = (0,0)`. -/
def Entity.update (e : Entity) : Entity :=
  let velocity := e.position - e.old_position
  let e1 := { e with old_position := e.position }
  let e2 := e1.apply_gravity
  let e3 := { e2 with position := e2.position + velocity + e2.acceleration }
  { e3 with acceleration := V2.mk 0 0 }

/-- `Entity::solve_collision` on the pair `(self, other)`; returns the pair
after the (possible) position correction. `sq` stands for `f32::sqrt`. -/
def Entity.solve_collision (sq : ℚ → ℚ) (a b : Entity) : Entity × Entity :=
  let response_coef : ℚ := 0.75
  let dist_pos := a.position - b.position
  let dist2 := dist_pos.x ^ 2 + dist_pos.y ^ 2
  let min_dist := a.radius + b.radius
  if dist2 < min_dist ^ 2 then
    let dist := sq dist2
    let n := dist_pos / dist
    let mass_ratio_1 := a.radius / (a.radius + b.radius)
    let mass_ratio_2 := b.radius / (a.radius + b.radius)
    let delta := 0.5 * response_coef * (dist - min_dist)
    ({ a with position := a.position - n * (mass_ratio_2 * delta) },
     { b with position := b.position + n * (mass_ratio_1 * delta) })
  else
    (a, b)

/-- The circular boundary's center, `((RECT_CANVAS_START.x + RECT_CANVAS_END.x) / 2,
(RECT_CANVAS_START.y + RECT_CANVAS_END.y) / 2)` = `(550, 300)`, hoisted from the
body of `apply_circle_contraint`. -/
def constraint_center : V2 :=
  ⟨(RECT_CANVAS_START.x + RECT_CANVAS_END.x) / 2,
   (RECT_CANVAS_START.y + RECT_CANVAS_END.y) / 2⟩

/-- The squared distance computed inside `apply_circle_contraint`:
`v = constraint_center - position; v.x * v.x + v.y * v.y`. -/
def circleDistSq (e : Entity) : ℚ :=
  let v := constraint_center - e.position
  v.x * v.x + v.y * v.y

/-- `Entity::apply_circle_contraint` (sic): clamp to the circle of radius
`canvas_radius = 300` around `constraint_center`. `sq` stands for `f32::sqrt`. -/
def Entity.apply_circle_contraint (sq : ℚ → ℚ) (e : Entity) : Entity :=
  let v := constraint_center - e.position
  let dist := sq (v.x * v.x + v.y * v.y)
  let canvas_radius : ℚ := 300
  if canvas_radius - e.radius < dist then
    let n := v / dist
    { e with position := constraint_center - n * (canvas_radius - e.radius) }
  else
    e

/-- Squared distance of a point from `constraint_center`, used to state the
containment bound. -/
def distSqToCenter (p : V2) : ℚ :=
  (p.x - constraint_center.x) ^ 2 + (p.y - constraint_center.y) ^ 2

/-- The simulator state of `struct App`. The `thread_rng`, `map` and
`map_size` fields are random/rendering glue carrying no simulation state and
are omitted; the random draws they feed are injected at each call instead. -/
structure App where
  next_entity_id : ℕ
  entities : List Entity
deriving DecidableEq

/-- `App::new()`: `next_entity_id: 1, entities: Vec::new()`. -/
def App.new : App := ⟨1, []⟩

/-- `App::create_circles` (the spawn operation). The radius (drawn from
`thread_rng.gen_range`), the color (`get_rainbow`) and the painter's shape
index (`ui.painter().add(...)`) are injected as arguments. The spawn x is
`CIRCLE_STARTING_POS.x + next_entity_id * 5. % 500.`; over nonnegative exact
values the `f32` remainder agrees with `%` on naturals. -/
def App.create_circles (radius : ℚ) (color : ℕ) (sid : ℕ) (s : App) : App :=
  if s.entities.length = CIRCLES_NUMBER then s
  else
    let position : V2 :=
      ⟨CIRCLE_STARTING_POS.x + ((s.next_entity_id * 5) % 500 : ℕ),
       CIRCLE_STARTING_POS.y⟩
    { next_entity_id := s.next_entity_id + 1,
      entities := s.entities ++
        [{ id := s.next_entity_id, shape_id := sid, position := position,
           old_position := position, acceleration := ⟨0, 0⟩,
           color := color, radius := radius }] }

/-- Iterated spawning: `n` spawn-eligible ticks, with the injected random
draws given as streams indexed by the tick number. -/
def spawnN (r : ℕ → ℚ) (c : ℕ → ℕ) (sid : ℕ → ℕ) : ℕ → App → App
  | 0, s => s
  | n + 1, s => (spawnN r c sid n s).create_circles (r n) (c n) (sid n)

/-- Inner loop of `App::update_entities`: `entity` (the split-off head)
solves collisions against every later entity, both sides mutating in place;
returns the updated head together with the updated tail. -/
def collideWithRest (sq : ℚ → ℚ) : Entity → List Entity → Entity × List Entity
  | e, [] => (e, [])
  | e, b :: bs =>
    let p := Entity.solve_collision sq e b
    let q := collideWithRest sq p.1 bs
    (q.1, p.2 :: q.2)

theorem collideWithRest_length (sq : ℚ → ℚ) :
    ∀ (e : Entity) (rest : List Entity),
      (collideWithRest sq e rest).2.length = rest.length := by
  intro e rest
  induction rest generalizing e with
  | nil => rfl
  | cons b bs ih => simp [collideWithRest, ih]

/-- `App::update_entities` (one substep): for each index `i` in order,
resolve collisions of entity `i` against every later entity (in place,
relaxation sweep), then apply the circular boundary constraint to entity
`i`, then integrate entity `i`. -/
def update_entities (sq : ℚ → ℚ) : List Entity → List Entity
  | [] => []
  | e :: rest =>
    let p := collideWithRest sq e rest
    Entity.update (Entity.apply_circle_contraint sq p.1) :: update_entities sq p.2
termination_by es => es.length
decreasing_by
  simp [collideWithRest_length]

/-- The number of `update_entities` calls per frame in `Window::update`:
the source runs `for _ in 0..2 { self.app.update_entities(); }`. -/
def window_substeps : ℕ := 2

/-- The simulation part of one external frame (`Window::update`): the
substep loop, iterated `window_substeps` times. -/
def window_update_sim (sq : ℚ → ℚ) (es : List Entity) : List Entity :=
  Nat.iterate (update_entities sq) window_substeps es

/-! ### Non-finite-aware model of `solve_collision`

`Option ℚ` models an `f32` value: `some q` is the finite value `q`, `none`
is a non-finite value (NaN or ±∞). IEEE arithmetic on finite operands that
stays finite is exact here; any operation with a non-finite operand yields a
non-finite result, and division of a finite value by zero yields a
non-finite one (`0.0 / 0.0` is NaN, `x / 0.0` is ±∞). Any comparison
involving a non-finite NaN operand is false; in the trace analysed below the
compared values are finite, so `fLt none _ = false` is never the deciding
case. -/

def fAdd : Option ℚ → Option ℚ → Option ℚ
  | some a, some b => some (a + b)
  | _, _ => none

def fSub : Option ℚ → Option ℚ → Option ℚ
  | some a, some b => some (a - b)
  | _, _ => none

def fMul : Option ℚ → Option ℚ → Option ℚ
  | some a, some b => some (a * b)
  | _, _ => none

def fDiv : Option ℚ → Option ℚ → Option ℚ
  | some a, some b => if b = 0 then none else some (a / b)
  | _, _ => none

def fLt : Option ℚ → Option ℚ → Bool
  | some a, some b => a < b
  | _, _ => false

/-- `f32::sqrt` in the non-finite model, abstracted like `sq` above. -/
def fSqrt (sq : ℚ → ℚ) : Option ℚ → Option ℚ
  | some a => some (sq a)
  | none => none

/-- An entity in the non-finite model: only the fields `solve_collision`
reads or writes. The radii are the finite constants drawn at spawn time. -/
structure EntityF where
  px : Option ℚ
  py : Option ℚ
  radius : ℚ
deriving DecidableEq

/-- `Entity::solve_collision` transcribed over the non-finite model,
operation for operation. -/
def solve_collisionF (sq : ℚ → ℚ) (a b : EntityF) : EntityF × EntityF :=
  let response_coef : ℚ := 0.75
  let dx := fSub a.px b.px
  let dy := fSub a.py b.py
  let dist2 := fAdd (fMul dx dx) (fMul dy dy)
  let min_dist := a.radius + b.radius
  if fLt dist2 (some (min_dist ^ 2)) = true then
    let dist := fSqrt sq dist2
    let nx := fDiv dx dist
    let ny := fDiv dy dist
    let mass_ratio_1 := a.radius / (a.radius + b.radius)
    let mass_ratio_2 := b.radius / (a.radius + b.radius)
    let delta := fMul (some (0.5 * response_coef)) (fSub dist (some min_dist))
    ({ a with px := fSub a.px (fMul nx (fMul (some mass_ratio_2) delta)),
              py := fSub a.py (fMul ny (fMul (some mass_ratio_2) delta)) },
     { b with px := fAdd b.px (fMul nx (fMul (some mass_ratio_1) delta)),
              py := fAdd b.py (fMul ny (fMul (some mass_ratio_1) delta)) })
  else
    (a, b)


/-! ### Claim theorems -/

/-- C3: `integrate()` (the source's `Entity::update`) performs one Verlet
step: afterwards `old_position` is the old position, the acceleration
accumulator is zero, and the new position is
old position + (old position - old previous position) + (old acceleration +
gravity); for zero prior acceleration the implicit velocity after the step
is old velocity + gravity exactly. -/
theorem update_verlet_step (e : Entity) :
    (Entity.update e).old_position = e.position ∧
    (Entity.update e).acceleration = V2.mk 0 0 ∧
    (Entity.update e).position =
      e.position + (e.position - e.old_position) + (e.acceleration + GRAVITY) ∧
    (e.acceleration = V2.mk 0 0 →
      (Entity.update e).position - (Entity.update e).old_position =
        (e.position - e.old_position) + GRAVITY) := by
  refine ⟨rfl, rfl, rfl, fun h => ?_⟩
  refine V2.ext ?_ ?_ <;>
    simp [Entity.update, Entity.apply_gravity, Entity.accelerate, h] <;> ring

/-- Witness for C3 at a concrete particle with zero pending acceleration. -/
theorem update_verlet_step_witness :
    (Entity.update ⟨1, 0, ⟨3, 4⟩, ⟨1, 2⟩, ⟨0, 0⟩, 0, 5⟩).position -
      (Entity.update ⟨1, 0, ⟨3, 4⟩, ⟨1, 2⟩, ⟨0, 0⟩, 0, 5⟩).old_position =
      ((⟨3, 4⟩ : V2) - ⟨1, 2⟩) + GRAVITY :=
  (update_verlet_step ⟨1, 0, ⟨3, 4⟩, ⟨1, 2⟩, ⟨0, 0⟩, 0, 5⟩).2.2.2 rfl

/-- C9: `solve_collision` modifies at most the two positions: `id`,
`shape_id`, `old_position`, `acceleration`, `color` and `radius` of both
particles are unchanged (no velocity impulse). -/
theorem solve_collision_frame (sq : ℚ → ℚ) (a b : Entity) :
    (Entity.solve_collision sq a b).1.id = a.id ∧
    (Entity.solve_collision sq a b).1.shape_id = a.shape_id ∧
    (Entity.solve_collision sq a b).1.old_position = a.old_position ∧
    (Entity.solve_collision sq a b).1.acceleration = a.acceleration ∧
    (Entity.solve_collision sq a b).1.color = a.color ∧
    (Entity.solve_collision sq a b).1.radius = a.radius ∧
    (Entity.solve_collision sq a b).2.id = b.id ∧
    (Entity.solve_collision sq a b).2.shape_id = b.shape_id ∧
    (Entity.solve_collision sq a b).2.old_position = b.old_position ∧
    (Entity.solve_collision sq a b).2.acceleration = b.acceleration ∧
    (Entity.solve_collision sq a b).2.color = b.color ∧
    (Entity.solve_collision sq a b).2.radius = b.radius := by
  simp only [Entity.solve_collision]
  split_ifs <;>
    exact ⟨rfl, rfl, rfl, rfl, rfl, rfl, rfl, rfl, rfl, rfl, rfl, rfl⟩

/-- The squared center distance computed by `solve_collision`. -/
def pairDistSq (a b : Entity) : ℚ :=
  (a.position - b.position).x ^ 2 + (a.position - b.position).y ^ 2

/-- C2: for overlapping particles (`0 < dist < min_dist`, with `dist` the
value `f32::sqrt` returns for the squared center distance),
`solve_collision` moves `a` by `-n * (r_b * delta)` and `b` by
`+n * (r_a * delta)` with `n = d / dist`,
`r_a = a.radius / (a.radius + b.radius)`,
`r_b = b.radius / (a.radius + b.radius)` and
`delta = 0.5 * 0.75 * (dist - min_dist)`; for `min_dist ≤ dist` both
particles are returned unchanged. -/
theorem solve_collision_spec (sq : ℚ → ℚ) (a b : Entity)
    (ha : 0 < a.radius) (hb : 0 < b.radius)
    (hsq : sq (pairDistSq a b) * sq (pairDistSq a b) = pairDistSq a b)
    (h0 : 0 ≤ sq (pairDistSq a b)) :
    (0 < sq (pairDistSq a b) → sq (pairDistSq a b) < a.radius + b.radius →
      Entity.solve_collision sq a b =
        ({ a with position := a.position -
            (a.position - b.position) / sq (pairDistSq a b) *
              (b.radius / (a.radius + b.radius) *
                (0.5 * 0.75 * (sq (pairDistSq a b) - (a.radius + b.radius)))) },
         { b with position := b.position +
            (a.position - b.position) / sq (pairDistSq a b) *
              (a.radius / (a.radius + b.radius) *
                (0.5 * 0.75 * (sq (pairDistSq a b) - (a.radius + b.radius)))) })) ∧
    (a.radius + b.radius ≤ sq (pairDistSq a b) →
      Entity.solve_collision sq a b = (a, b)) := by
  constructor
  · intro _ hlt
    have hguard : (a.position - b.position).x ^ 2 + (a.position - b.position).y ^ 2 <
        (a.radius + b.radius) ^ 2 := by
      have h2 : sq (pairDistSq a b) * sq (pairDistSq a b) <
          (a.radius + b.radius) * (a.radius + b.radius) :=
        mul_self_lt_mul_self h0 hlt
      calc (a.position - b.position).x ^ 2 + (a.position - b.position).y ^ 2
          = sq (pairDistSq a b) * sq (pairDistSq a b) := hsq.symm
        _ < (a.radius + b.radius) * (a.radius + b.radius) := h2
        _ = (a.radius + b.radius) ^ 2 := by ring
    simp only [Entity.solve_collision]
    rw [if_pos hguard]
    rfl
  · intro hge
    have hguard : ¬ ((a.position - b.position).x ^ 2 + (a.position - b.position).y ^ 2 <
        (a.radius + b.radius) ^ 2) := by
      have h2 : (a.radius + b.radius) * (a.radius + b.radius) ≤
          sq (pairDistSq a b) * sq (pairDistSq a b) :=
        mul_self_le_mul_self (le_of_lt (add_pos ha hb)) hge
      rw [not_lt]
      calc (a.radius + b.radius) ^ 2
          = (a.radius + b.radius) * (a.radius + b.radius) := by ring
        _ ≤ sq (pairDistSq a b) * sq (pairDistSq a b) := h2
        _ = (a.position - b.position).x ^ 2 + (a.position - b.position).y ^ 2 := hsq
    simp only [Entity.solve_collision]
    rw [if_neg hguard]

/-- Witness for C2: radii 2 and 3, centers 3 apart (`sqrt 9 = 3`); the first
particle is pushed from `x = 3` to `x = 69/20`. -/
theorem solve_collision_spec_witness :
    (Entity.solve_collision (fun q => if q = 9 then 3 else 0)
        ⟨1, 0, ⟨3, 0⟩, ⟨3, 0⟩, ⟨0, 0⟩, 0, 2⟩
        ⟨2, 1, ⟨0, 0⟩, ⟨0, 0⟩, ⟨0, 0⟩, 0, 3⟩).1.position = ⟨69/20, 0⟩ := by
  have h := (solve_collision_spec (fun q => if q = 9 then 3 else 0)
      ⟨1, 0, ⟨3, 0⟩, ⟨3, 0⟩, ⟨0, 0⟩, 0, 2⟩
      ⟨2, 1, ⟨0, 0⟩, ⟨0, 0⟩, ⟨0, 0⟩, 0, 3⟩
      (by norm_num) (by norm_num)
      (by norm_num [pairDistSq]) (by norm_num [pairDistSq])).1
      (by norm_num [pairDistSq]) (by norm_num [pairDistSq])
  rw [h]
  refine V2.ext ?_ ?_ <;> norm_num [pairDistSq]

/-- The square root oracle for the C6 scenario: the only value taken is
`sqrt 25 = 5`. -/
def sqScenario : ℚ → ℚ := fun q => if q = 25 then 5 else 0

/-- First particle of the C6 scenario: radius 10 at `(5, 0)`. -/
def aScenario : Entity := ⟨1, 0, ⟨5, 0⟩, ⟨5, 0⟩, ⟨0, 0⟩, 0, 10⟩

/-- Second particle of the C6 scenario: radius 10 at `(0, 0)`. -/
def bScenario : Entity := ⟨2, 1, ⟨0, 0⟩, ⟨0, 0⟩, ⟨0, 0⟩, 0, 10⟩

/-- C6 counterexample: for two particles of radius 10 whose centers are 5
apart, one `solve_collision` call leaves the centers `85/8 = 10.625` apart —
the distance does NOT increase by `0.75 * 15 = 11.25` (which would give
`16.25`), because `delta` carries an extra factor `0.5`. -/
theorem solve_collision_scenario_counterexample :
    (Entity.solve_collision sqScenario aScenario bScenario).1.position.y = 0 ∧
    (Entity.solve_collision sqScenario aScenario bScenario).2.position.y = 0 ∧
    (Entity.solve_collision sqScenario aScenario bScenario).1.position.x -
      (Entity.solve_collision sqScenario aScenario bScenario).2.position.x = 85/8 ∧
    ¬ ((85 : ℚ)/8 = 5 + 0.75 * 15) := by
  refine ⟨?_, ?_, ?_, by norm_num⟩ <;>
    norm_num [Entity.solve_collision, sqScenario, aScenario, bScenario]

/-- C6 amended: in the same scenario the distance between centers increases
by exactly `0.5 * 0.75 * 15 = 5.625`, split 1:1, each particle moving
`2.8125` along the connecting line (the x-axis). -/
theorem solve_collision_scenario :
    (Entity.solve_collision sqScenario aScenario bScenario).1.position = ⟨125/16, 0⟩ ∧
    (Entity.solve_collision sqScenario aScenario bScenario).2.position = ⟨-45/16, 0⟩ ∧
    (125 : ℚ)/16 - (-45)/16 = 5 + 0.5 * 0.75 * 15 ∧
    (125 : ℚ)/16 - 5 = 0.5 * 0.75 * 15 / 2 ∧
    (0 : ℚ) - (-45)/16 = 0.5 * 0.75 * 15 / 2 := by
  refine ⟨?_, ?_, by norm_num, by norm_num, by norm_num⟩ <;>
    · refine V2.ext ?_ ?_ <;>
        norm_num [Entity.solve_collision, sqScenario, aScenario, bScenario]

/-- C1: with exactly coincident centers the overlap branch IS taken
(`dist2 = 0 < min_dist²`), the code computes `n = (0/0, 0/0)` — NaN — and
both corrected positions are non-finite: the division by zero is NOT
guarded. Here `none` is a non-finite `f32` value; the square root oracle
returns `0` at the only argument encountered, `0`, matching
`f32::sqrt(0.0) = 0.0`. -/
theorem solve_collision_coincident_nonfinite :
    (solve_collisionF (fun _ => 0)
        ⟨some 100, some 100, 10⟩ ⟨some 100, some 100, 10⟩).1.px = none ∧
    (solve_collisionF (fun _ => 0)
        ⟨some 100, some 100, 10⟩ ⟨some 100, some 100, 10⟩).1.py = none ∧
    (solve_collisionF (fun _ => 0)
        ⟨some 100, some 100, 10⟩ ⟨some 100, some 100, 10⟩).2.px = none ∧
    (solve_collisionF (fun _ => 0)
        ⟨some 100, some 100, 10⟩ ⟨some 100, some 100, 10⟩).2.py = none := by
  norm_num [solve_collisionF, fSub, fAdd, fMul, fDiv, fSqrt, fLt]

/-- C4: after `apply_circle_contraint` the squared distance from the
boundary center is at most `(300 - radius)²`; a particle already within
that distance (as measured by the `f32::sqrt` result) is unchanged; a
particle exactly at the center is unchanged (no division by zero occurs
because the guard `0 > 300 - radius` is false); a particle outside is
clamped exactly onto the inner circle of radius `300 - radius`, along the
ray from the center through its current position. -/
theorem apply_circle_contraint_spec (sq : ℚ → ℚ) (e : Entity)
    (_hr : 0 < e.radius) (hr' : e.radius ≤ 300)
    (hsq : sq (circleDistSq e) * sq (circleDistSq e) = circleDistSq e)
    (h0 : 0 ≤ sq (circleDistSq e)) :
    distSqToCenter (Entity.apply_circle_contraint sq e).position ≤ (300 - e.radius) ^ 2 ∧
    (sq (circleDistSq e) ≤ 300 - e.radius → Entity.apply_circle_contraint sq e = e) ∧
    (e.position = constraint_center → Entity.apply_circle_contraint sq e = e) ∧
    (300 - e.radius < sq (circleDistSq e) →
      distSqToCenter (Entity.apply_circle_contraint sq e).position = (300 - e.radius) ^ 2 ∧
      (Entity.apply_circle_contraint sq e).position - constraint_center =
        (e.position - constraint_center) * ((300 - e.radius) / sq (circleDistSq e))) := by
  have hA : (constraint_center - e.position).x * (constraint_center - e.position).x +
      (constraint_center - e.position).y * (constraint_center - e.position).y =
      circleDistSq e := rfl
  have hcs : circleDistSq e =
      (constraint_center.x - e.position.x) * (constraint_center.x - e.position.x) +
      (constraint_center.y - e.position.y) * (constraint_center.y - e.position.y) := rfl
  rcases lt_or_le (300 - e.radius) (sq (circleDistSq e)) with h | h
  · have hres : Entity.apply_circle_contraint sq e =
        { e with position := constraint_center -
            (constraint_center - e.position) / sq (circleDistSq e) * (300 - e.radius) } := by
      simp only [Entity.apply_circle_contraint, hA]
      rw [if_pos h]
    have hknn : (0 : ℚ) ≤ 300 - e.radius := by linarith
    have hdpos : 0 < sq (circleDistSq e) := lt_of_le_of_lt hknn h
    have hdne : sq (circleDistSq e) ≠ 0 := ne_of_gt hdpos
    have hdd : (constraint_center.x - e.position.x) * (constraint_center.x - e.position.x) +
        (constraint_center.y - e.position.y) * (constraint_center.y - e.position.y) =
        sq (circleDistSq e) * sq (circleDistSq e) := hcs.symm.trans hsq.symm
    have heq : distSqToCenter (Entity.apply_circle_contraint sq e).position =
        (300 - e.radius) ^ 2 := by
      rw [hres]
      dsimp only [distSqToCenter, V2.sub_x, V2.sub_y, V2.sdiv_x, V2.sdiv_y, V2.smul_x, V2.smul_y]
      field_simp
      linear_combination ((300 - e.radius) ^ 2) * hdd
    have hcol : (Entity.apply_circle_contraint sq e).position - constraint_center =
        (e.position - constraint_center) * ((300 - e.radius) / sq (circleDistSq e)) := by
      rw [hres]
      refine V2.ext ?_ ?_ <;>
        dsimp only [V2.sub_x, V2.sub_y, V2.sdiv_x, V2.sdiv_y, V2.smul_x, V2.smul_y] <;> ring
    refine ⟨le_of_eq heq, fun h2 => absurd h2 (not_le.mpr h), fun hp => ?_, fun _ => ⟨heq, hcol⟩⟩
    exfalso
    have h00 : circleDistSq e = 0 := by rw [hcs, hp]; ring
    have hd0 : sq (circleDistSq e) = 0 := by
      have h1 := hsq
      rw [h00] at h1
      rw [h00]
      exact mul_self_eq_zero.mp h1
    rw [hd0] at h
    linarith
  · have hres : Entity.apply_circle_contraint sq e = e := by
      simp only [Entity.apply_circle_contraint, hA]
      rw [if_neg (not_lt.mpr h)]
    have hb : distSqToCenter e.position ≤ (300 - e.radius) ^ 2 := by
      have h1 : distSqToCenter e.position = circleDistSq e := by
        rw [hcs]
        dsimp only [distSqToCenter]
        ring
      have h2 : sq (circleDistSq e) * sq (circleDistSq e) ≤
          (300 - e.radius) * (300 - e.radius) := mul_self_le_mul_self h0 h
      calc distSqToCenter e.position = circleDistSq e := h1
        _ = sq (circleDistSq e) * sq (circleDistSq e) := hsq.symm
        _ ≤ (300 - e.radius) * (300 - e.radius) := h2
        _ = (300 - e.radius) ^ 2 := by ring
    refine ⟨?_, fun _ => hres, fun _ => hres, fun h4 => absurd h4 (not_lt.mpr h)⟩
    rw [hres]
    exact hb

/-- Witness for C4: a particle of radius 10 at `(845, 300)`, squared center
distance `87025 = 295²`, is clamped onto squared distance `84100 = 290²`. -/
theorem apply_circle_contraint_spec_witness :
    distSqToCenter ((Entity.apply_circle_contraint (fun q => if q = 87025 then 295 else 0)
      ⟨1, 0, ⟨845, 300⟩, ⟨845, 300⟩, ⟨0, 0⟩, 0, 10⟩).position) = (300 - (10 : ℚ)) ^ 2 := by
  have h := (apply_circle_contraint_spec (fun q => if q = 87025 then 295 else 0)
      ⟨1, 0, ⟨845, 300⟩, ⟨845, 300⟩, ⟨0, 0⟩, 0, 10⟩
      (by norm_num) (by norm_num)
      (by norm_num [circleDistSq, constraint_center, RECT_CANVAS_START, RECT_CANVAS_END])
      (by norm_num [circleDistSq, constraint_center, RECT_CANVAS_START, RECT_CANVAS_END])).2.2.2
      (by norm_num [circleDistSq, constraint_center, RECT_CANVAS_START, RECT_CANVAS_END])
  exact h.1

/-- C7: `create_circles` is a silent no-op when the population equals
`CIRCLES_NUMBER`, otherwise it appends exactly one particle and increments
`next_entity_id`; consequently, starting from `App::new`, the population
after `n` spawn-eligible ticks is `min n CIRCLES_NUMBER` — it grows by one
per tick up to the cap and stays there. -/
theorem create_circles_cap :
    (∀ (r : ℚ) (c sid : ℕ) (s : App),
      (s.entities.length = CIRCLES_NUMBER → App.create_circles r c sid s = s) ∧
      (s.entities.length ≠ CIRCLES_NUMBER →
        (App.create_circles r c sid s).entities.length = s.entities.length + 1 ∧
        (App.create_circles r c sid s).next_entity_id = s.next_entity_id + 1)) ∧
    (∀ (r : ℕ → ℚ) (c sid : ℕ → ℕ) (n : ℕ),
      (spawnN r c sid n App.new).entities.length = min n CIRCLES_NUMBER) := by
  have base : ∀ (r : ℚ) (c sid : ℕ) (s : App),
      (s.entities.length = CIRCLES_NUMBER → App.create_circles r c sid s = s) ∧
      (s.entities.length ≠ CIRCLES_NUMBER →
        (App.create_circles r c sid s).entities.length = s.entities.length + 1 ∧
        (App.create_circles r c sid s).next_entity_id = s.next_entity_id + 1) := by
    intro r c sid s
    constructor
    · intro h
      simp [App.create_circles, h]
    · intro h
      simp [App.create_circles, h]
  refine ⟨base, ?_⟩
  intro r c sid n
  induction n with
  | zero => simp [spawnN, App.new]
  | succ n ih =>
    simp only [spawnN]
    by_cases h : (spawnN r c sid n App.new).entities.length = CIRCLES_NUMBER
    · rw [(base (r n) (c n) (sid n) _).1 h, ih]
      rw [ih] at h
      omega
    · rw [((base (r n) (c n) (sid n) _).2 h).1, ih]
      rw [ih] at h
      simp only [CIRCLES_NUMBER] at h ⊢
      omega

/-- A default particle used to build a concrete full population. -/
def entity0 : Entity := ⟨0, 0, ⟨0, 0⟩, ⟨0, 0⟩, ⟨0, 0⟩, 0, 1⟩

/-- A concrete state already at the population cap. -/
def fullApp : App := ⟨1, List.replicate 750 entity0⟩

/-- Witness for C7: spawning at the cap is a no-op; from the initial state
a spawn adds exactly one particle. -/
theorem create_circles_cap_witness :
    App.create_circles 10 0 0 fullApp = fullApp ∧
    (App.create_circles 10 0 0 App.new).entities.length = 0 + 1 := by
  constructor
  · exact (create_circles_cap.1 10 0 0 fullApp).1
      (by simp only [fullApp, List.length_replicate, CIRCLES_NUMBER])
  · have h := ((create_circles_cap.1 10 0 0 App.new).2 (by simp [App.new, CIRCLES_NUMBER])).1
    simpa [App.new] using h

/-- C10: a particle created by `create_circles` starts at rest —
`old_position` equals `position` and the acceleration accumulator is zero. -/
theorem create_circles_at_rest (r : ℚ) (c sid : ℕ) (s : App)
    (h : s.entities.length ≠ CIRCLES_NUMBER) :
    ∃ e : Entity, (App.create_circles r c sid s).entities = s.entities ++ [e] ∧
      e.old_position = e.position ∧ e.acceleration = V2.mk 0 0 := by
  refine ⟨Entity.mk s.next_entity_id sid
      ⟨CIRCLE_STARTING_POS.x + ((s.next_entity_id * 5) % 500 : ℕ), CIRCLE_STARTING_POS.y⟩
      ⟨CIRCLE_STARTING_POS.x + ((s.next_entity_id * 5) % 500 : ℕ), CIRCLE_STARTING_POS.y⟩
      ⟨0, 0⟩ c r, ?_, rfl, rfl⟩
  simp [App.create_circles, h]

/-- Witness for C10 at the initial state. -/
theorem create_circles_at_rest_witness :
    ∃ e : Entity, (App.create_circles 10 0 0 App.new).entities = App.new.entities ++ [e] ∧
      e.old_position = e.position ∧ e.acceleration = V2.mk 0 0 :=
  create_circles_at_rest 10 0 0 App.new (by simp [App.new, CIRCLES_NUMBER])

/-- Two distinct particles sharing a painter shape index. -/
def entitySharedShape1 : Entity := ⟨1, 7, ⟨0, 0⟩, ⟨0, 0⟩, ⟨0, 0⟩, 0, 5⟩

/-- A second particle with a different `id` but the same `shape_id`. -/
def entitySharedShape2 : Entity := ⟨2, 7, ⟨1, 1⟩, ⟨1, 1⟩, ⟨0, 0⟩, 0, 6⟩

/-- C8 counterexample: the code's equality compares `shape_id`, not `id`:
two particles with different ids but the same rendering handle are "equal",
so equality does not hold iff ids are equal. -/
theorem entity_eq_counterexample :
    Entity.eq entitySharedShape1 entitySharedShape2 = true ∧
    entitySharedShape1.id ≠ entitySharedShape2.id := by
  constructor
  · rfl
  · simp [entitySharedShape1, entitySharedShape2]

/-- Invariant of iterated spawning from the initial state: every particle's
id is below `next_entity_id`, and the ids appear in strictly increasing
order (hence unique and never reused). -/
theorem spawnN_id_invariant (r : ℕ → ℚ) (c sid : ℕ → ℕ) (n : ℕ) :
    (∀ e ∈ (spawnN r c sid n App.new).entities,
      e.id < (spawnN r c sid n App.new).next_entity_id) ∧
    List.Pairwise (fun i j => i < j)
      ((spawnN r c sid n App.new).entities.map Entity.id) := by
  induction n with
  | zero => simp [spawnN, App.new]
  | succ n ih =>
    obtain ⟨h1, h2⟩ := ih
    simp only [spawnN, App.create_circles]
    by_cases h : (spawnN r c sid n App.new).entities.length = CIRCLES_NUMBER
    · rw [if_pos h]
      exact ⟨h1, h2⟩
    · rw [if_neg h]
      constructor
      · intro e he
        simp only [List.mem_append, List.mem_singleton] at he
        rcases he with he | he
        · exact lt_trans (h1 e he) (Nat.lt_succ_self _)
        · rw [he]
          exact Nat.lt_succ_self _
      · rw [List.map_append]
        refine List.pairwise_append.mpr ⟨h2, by simp, ?_⟩
        intro x hx y hy
        simp only [List.map_cons, List.map_nil, List.mem_singleton] at hy
        rw [hy]
        simp only [List.mem_map] at hx
        obtain ⟨e, he, hex⟩ := hx
        rw [← hex]
        exact h1 e he

/-- C8 amended: the equality relation the code defines holds iff the
`shape_id` rendering handles are equal (not iff the ids are equal); the
`id` field itself is, as claimed, unique and monotonically assigned along
any spawn sequence from the initial state. -/
theorem entity_eq_keyed_on_shape_id :
    (∀ a b : Entity, Entity.eq a b = true ↔ a.shape_id = b.shape_id) ∧
    (∀ (r : ℕ → ℚ) (c sid : ℕ → ℕ) (n : ℕ),
      List.Pairwise (fun i j => i < j)
        ((spawnN r c sid n App.new).entities.map Entity.id)) := by
  constructor
  · intro a b
    simp [Entity.eq]
  · intro r c sid n
    exact (spawnN_id_invariant r c sid n).2

/-- Witness for C8's amended statement on a concrete spawn sequence. -/
theorem entity_eq_keyed_on_shape_id_witness :
    List.Pairwise (fun i j => i < j)
      ((spawnN (fun _ => 10) (fun _ => 0) (fun _ => 0) 3 App.new).entities.map Entity.id) :=
  entity_eq_keyed_on_shape_id.2 (fun _ => 10) (fun _ => 0) (fun _ => 0) 3

/-- C5 counterexample: the substep loop in `Window::update` runs
`for _ in 0..2`, i.e. 2 substeps per frame, not the `SUB_STEPS = 10` the
claim states (the constant is declared but never used by the loop). -/
theorem window_substeps_counterexample : window_substeps ≠ SUB_STEPS := by
  simp [window_substeps, SUB_STEPS]

/-- C5 amended: each external frame runs the full substep pass
(`update_entities`: pairwise collision resolution, boundary constraint and
integration per particle) exactly `window_substeps = 2` times. -/
theorem window_update_sim_two (sq : ℚ → ℚ) (es : List Entity) :
    window_update_sim sq es = update_entities sq (update_entities sq es) := rfl
